import Mathlib

/-!
Verification of the firewall-central agent communication and command
lifecycle core, shallowly embedded from the Python sources
(`web_ui/agents/...`, `api_server/...`, `agent/http_agent.py`).

Strings are modelled as `List Char`; the helpers below reproduce the
Python string operations the sources use (`strip`, `split`, `replace`,
`lower`, `in`, `startswith`, `split(sep, 1)`).
-/

namespace FirewallCentral

/-- Python `str` whitespace for default `strip`/`split` (ASCII). -/
def pyIsSpace (c : Char) : Bool :=
  c = ' ' || c = '\t' || c = '\n' || c = '\x0d' || c = '\x0b' || c = '\x0c'

/-- Python `s.strip()`: drop whitespace from both ends. -/
def pyStrip (s : List Char) : List Char :=
  ((s.dropWhile pyIsSpace).reverse.dropWhile pyIsSpace).reverse

/-- Python `s.split()` (no argument): split on whitespace runs, no empties. -/
def pySplitWs : List Char → List Char → List (List Char)
  | [], acc => if acc = [] then [] else [acc.reverse]
  | c :: cs, acc =>
    if pyIsSpace c then
      if acc = [] then pySplitWs cs [] else acc.reverse :: pySplitWs cs []
    else pySplitWs cs (c :: acc)

/-- Python `s.split(sep)` for a one-character separator: keeps empties. -/
def splitOnChar (sep : Char) : List Char → List (List Char)
  | [] => [[]]
  | c :: cs =>
    if c = sep then [] :: splitOnChar sep cs
    else
      match splitOnChar sep cs with
      | [] => [[c]]
      | h :: t => (c :: h) :: t

/-- Recursion on fuel so the definition reduces in the kernel; `pyReplace`
supplies fuel `s.length`, which suffices since every step shortens `s`. -/
def pyReplaceAux (pat repl : List Char) : Nat → List Char → List Char
  | _, [] => []
  | 0, s => s
  | fuel + 1, c :: cs =>
    if !pat.isEmpty && pat.isPrefixOf (c :: cs) then
      repl ++ pyReplaceAux pat repl fuel ((c :: cs).drop pat.length)
    else
      c :: pyReplaceAux pat repl fuel cs

/-- Python `s.replace(pat, repl)`: every non-overlapping occurrence,
left to right. -/
def pyReplace (pat repl s : List Char) : List Char :=
  pyReplaceAux pat repl s.length s

/-- Python `s.split(sep, 1)` combined with `sep in s`: `some (before, after)`
at the first occurrence of `sep`, `none` when `sep` does not occur. -/
def splitFirst (sep : Char) : List Char → Option (List Char × List Char)
  | [] => none
  | c :: cs =>
    if c = sep then some ([], cs)
    else (splitFirst sep cs).map (fun p => (c :: p.1, p.2))

/-- Python `s.lower()` (ASCII data). -/
def pyLower (s : List Char) : List Char := s.map Char.toLower

/-- Python `needle in haystack` for strings: substring containment. -/
def pyContains (needle : List Char) : List Char → Bool
  | [] => needle.isEmpty
  | c :: cs => needle.isPrefixOf (c :: cs) || pyContains needle cs

/-- Python `s.startswith(p)`. -/
def pyStartsWith (p s : List Char) : Bool := p.isPrefixOf s

end FirewallCentral

namespace FirewallCentral

/-!
## Result parser

`web_ui/agents/management/commands/sync_agents.py`, `Command.sync_agent`
lines 100–165: per-zone detail text is split on newlines, each line is
stripped and matched on a fixed set of prefixes, and the parsed zone then
yields one derived rule per service and per port token.
-/

/-- The parse state built per zone by `sync_agent` (its local variables
`services`, `ports`, `interfaces`, `sources`, `masquerade`, `target`). -/
structure ZoneParse where
  services : List (List Char)
  ports : List (List Char)
  interfaces : List (List Char)
  sources : List (List Char)
  masquerade : Bool
  target : List Char
deriving DecidableEq

/-- The recognized line prefixes of `sync_agent`'s parsing loop. -/
def servicesTok : List Char := "services:".toList

def portsTok : List Char := "ports:".toList

def interfacesTok : List Char := "interfaces:".toList

def sourcesTok : List Char := "sources:".toList

def masqueradeTok : List Char := "masquerade:".toList

def targetTok : List Char := "target:".toList

/-- Python `line.replace(prefixTok, '').strip().split()` with the `if s` filter,
as `sync_agent` computes each token-list field. -/
def tokenField (prefixTok line : List Char) : List (List Char) :=
  (pySplitWs (pyStrip (pyReplace prefixTok [] line)) []).filter (· ≠ [])

/-- One iteration of the `for line in zone_details.split('\n')` loop of
`sync_agent` (lines 108–121). -/
def parseZoneLine (st : ZoneParse) (raw : List Char) : ZoneParse :=
  let line := pyStrip raw
  if pyStartsWith servicesTok line then
    { st with services := tokenField servicesTok line }
  else if pyStartsWith portsTok line then
    { st with ports := tokenField portsTok line }
  else if pyStartsWith interfacesTok line then
    { st with interfaces := tokenField interfacesTok line }
  else if pyStartsWith sourcesTok line then
    { st with sources := tokenField sourcesTok line }
  else if pyStartsWith masqueradeTok line then
    { st with masquerade := pyContains "yes".toList (pyLower line) }
  else if pyStartsWith targetTok line then
    { st with target := pyStrip (pyReplace targetTok [] line) }
  else
    st

/-- Initial values of `sync_agent`'s parse variables (lines 101–106). -/
def initZoneParse : ZoneParse :=
  { services := [], ports := [], interfaces := [], sources := []
    masquerade := false, target := "default".toList }

/-- The whole parsing loop over one zone's detail text. -/
def parseZoneDetails (details : List Char) : ZoneParse :=
  (splitOnChar '\n' details).foldl parseZoneLine initZoneParse

/-- A `FirewallRule` row as derived by `sync_agent` (lines 136–165):
`rule_type='service'` with the service name, or `rule_type='port'` with
port and protocol. -/
inductive DerivedRule where
  | service (service : List Char)
  | port (port protocol : List Char)
deriving DecidableEq

/-- Port-spec handling of `sync_agent` lines 151–154: split on the first
`/`; a token without `/` gets protocol `tcp`. -/
def parsePortSpec (spec : List Char) : List Char × List Char :=
  match splitFirst '/' spec with
  | some (p, proto) => (p, proto)
  | none => (spec, "tcp".toList)

/-- The derived rules `sync_agent` creates for one parsed zone: one service
rule per service token (lines 137–146), then one port rule per port token
(lines 149–165). -/
def derivedRules (z : ZoneParse) : List DerivedRule :=
  z.services.map .service ++
    z.ports.map (fun spec => .port (parsePortSpec spec).1 (parsePortSpec spec).2)

/-- The line prefixes `sync_agent` recognizes. -/
def recognizedPrefixes : List (List Char) :=
  [servicesTok, portsTok, interfacesTok,
   sourcesTok, masqueradeTok, targetTok]

/-- Two incomparable prefixes cannot both start the same line. -/
theorem not_both_elim {p q l : List Char} (h : pyStartsWith p l = true)
    (h' : pyStartsWith q l = true) (hp : p.isPrefixOf q = false)
    (hq : q.isPrefixOf p = false) : False := by
  rw [pyStartsWith, List.isPrefixOf_iff_prefix] at h h'
  rcases List.prefix_or_prefix_of_prefix h h' with hc | hc
  · rw [← List.isPrefixOf_iff_prefix] at hc
    exact absurd hc (by simp [hp])
  · rw [← List.isPrefixOf_iff_prefix] at hc
    exact absurd hc (by simp [hq])

theorem parseZoneLine_services (st : ZoneParse) (raw : List Char) :
    (parseZoneLine st raw).services =
      if pyStartsWith servicesTok (pyStrip raw) then
        tokenField servicesTok (pyStrip raw)
      else st.services := by
  simp only [parseZoneLine]
  repeat' split <;> simp_all

theorem parseZoneLine_ports (st : ZoneParse) (raw : List Char) :
    (parseZoneLine st raw).ports =
      if pyStartsWith portsTok (pyStrip raw) then
        tokenField portsTok (pyStrip raw)
      else st.ports := by
  simp only [parseZoneLine]
  repeat' split <;> try simp_all
  all_goals
    rename_i h1 h2
    exact (not_both_elim h1 h2 (by decide) (by decide)).elim

theorem parseZoneLine_masquerade (st : ZoneParse) (raw : List Char) :
    (parseZoneLine st raw).masquerade =
      if pyStartsWith masqueradeTok (pyStrip raw) then
        pyContains "yes".toList (pyLower (pyStrip raw))
      else st.masquerade := by
  simp only [parseZoneLine]
  repeat' split <;> try simp_all
  all_goals
    rename_i h1 h2
    exact (not_both_elim h1 h2 (by decide) (by decide)).elim

theorem parseZoneLine_target (st : ZoneParse) (raw : List Char) :
    (parseZoneLine st raw).target =
      if pyStartsWith targetTok (pyStrip raw) then
        pyStrip (pyReplace targetTok [] (pyStrip raw))
      else st.target := by
  simp only [parseZoneLine]
  repeat' split <;> try simp_all
  all_goals
    rename_i h1 h2
    exact (not_both_elim h1 h2 (by decide) (by decide)).elim

theorem foldl_parseZoneLine_services (ls : List (List Char)) (st : ZoneParse) :
    (ls.foldl parseZoneLine st).services =
      ((ls.map pyStrip).filter
          (fun l => pyStartsWith servicesTok l)).foldl
        (fun _ l => tokenField servicesTok l) st.services := by
  induction ls generalizing st with
  | nil => rfl
  | cons a ls ih =>
    simp only [List.foldl_cons, List.map_cons, List.filter_cons]
    rw [ih]
    cases h : pyStartsWith servicesTok (pyStrip a) <;>
      simp_all [parseZoneLine_services]

theorem foldl_parseZoneLine_ports (ls : List (List Char)) (st : ZoneParse) :
    (ls.foldl parseZoneLine st).ports =
      ((ls.map pyStrip).filter
          (fun l => pyStartsWith portsTok l)).foldl
        (fun _ l => tokenField portsTok l) st.ports := by
  induction ls generalizing st with
  | nil => rfl
  | cons a ls ih =>
    simp only [List.foldl_cons, List.map_cons, List.filter_cons]
    rw [ih]
    cases h : pyStartsWith portsTok (pyStrip a) <;>
      simp_all [parseZoneLine_ports]

theorem foldl_parseZoneLine_masquerade (ls : List (List Char)) (st : ZoneParse) :
    (ls.foldl parseZoneLine st).masquerade =
      ((ls.map pyStrip).filter
          (fun l => pyStartsWith masqueradeTok l)).foldl
        (fun _ l => pyContains "yes".toList (pyLower l)) st.masquerade := by
  induction ls generalizing st with
  | nil => rfl
  | cons a ls ih =>
    simp only [List.foldl_cons, List.map_cons, List.filter_cons]
    rw [ih]
    cases h : pyStartsWith masqueradeTok (pyStrip a) <;>
      simp_all [parseZoneLine_masquerade]

theorem foldl_parseZoneLine_target (ls : List (List Char)) (st : ZoneParse) :
    (ls.foldl parseZoneLine st).target =
      ((ls.map pyStrip).filter
          (fun l => pyStartsWith targetTok l)).foldl
        (fun _ l => pyStrip (pyReplace targetTok [] l)) st.target := by
  induction ls generalizing st with
  | nil => rfl
  | cons a ls ih =>
    simp only [List.foldl_cons, List.map_cons, List.filter_cons]
    rw [ih]
    cases h : pyStartsWith targetTok (pyStrip a) <;>
      simp_all [parseZoneLine_target]

theorem splitFirst_of_not_mem {sep : Char} {s : List Char} (h : sep ∉ s) :
    splitFirst sep s = none := by
  induction s with
  | nil => rfl
  | cons c cs ih =>
    simp only [List.mem_cons, not_or] at h
    have h' : ¬c = sep := fun hc => h.1 hc.symm
    simp [splitFirst, h', ih h.2]

theorem splitFirst_append {sep : Char} (a b : List Char) (h : sep ∉ a) :
    splitFirst sep (a ++ sep :: b) = some (a, b) := by
  induction a with
  | nil => simp [splitFirst]
  | cons c cs ih =>
    simp only [List.mem_cons, not_or] at h
    have h' : ¬c = sep := fun hc => h.1 hc.symm
    simp [splitFirst, h', ih h.2]

/-- C2: if a zone's detail text has exactly the line
`services: ssh dhcpv6-client` among its `services:` lines and exactly
`ports: 80/tcp 8080-8090/udp` among its `ports:` lines, the result-parsing
step of a sync derives exactly the rules service ssh, service
dhcpv6-client, port 80/tcp, and port 8080-8090/udp, in that order. -/
theorem sync_parse_roundtrip_rules (details : List Char)
    (hs : ((splitOnChar '\n' details).map pyStrip).filter
        (fun l => pyStartsWith servicesTok l) =
        ["services: ssh dhcpv6-client".toList])
    (hp : ((splitOnChar '\n' details).map pyStrip).filter
        (fun l => pyStartsWith portsTok l) =
        ["ports: 80/tcp 8080-8090/udp".toList]) :
    derivedRules (parseZoneDetails details) =
      [.service "ssh".toList, .service "dhcpv6-client".toList,
       .port "80".toList "tcp".toList, .port "8080-8090".toList "udp".toList] := by
  have h1 : (parseZoneDetails details).services =
      ["services: ssh dhcpv6-client".toList].foldl
        (fun _ l => tokenField servicesTok l) initZoneParse.services := by
    simp only [parseZoneDetails]
    rw [foldl_parseZoneLine_services, hs]
  have h2 : (parseZoneDetails details).ports =
      ["ports: 80/tcp 8080-8090/udp".toList].foldl
        (fun _ l => tokenField portsTok l) initZoneParse.ports := by
    simp only [parseZoneDetails]
    rw [foldl_parseZoneLine_ports, hp]
  simp only [derivedRules]
  rw [h1, h2]
  decide

/-- A concrete zone detail text for the C2 witness. -/
def roundtripDetails : List Char :=
  ("public\n  target: default\n  icmp-block-inversion: no\n  interfaces: eth0\n  sources: \n  services: ssh dhcpv6-client\n  ports: 80/tcp 8080-8090/udp\n  masquerade: no\n  forward-ports: \n").toList

/-- Witness for C2 at a concrete detail text. -/
theorem sync_parse_roundtrip_rules_witness :
    derivedRules (parseZoneDetails roundtripDetails) =
      [.service "ssh".toList, .service "dhcpv6-client".toList,
       .port "80".toList "tcp".toList, .port "8080-8090".toList "udp".toList] :=
  sync_parse_roundtrip_rules roundtripDetails (by decide) (by decide)

/-- C9: the result parser (a) sets `masquerade` to whether the
`masquerade:` line case-insensitively contains "yes", (b) leaves `target`
at its default `"default"` when no `target:` line is present, (c) splits a
port token on its first `/` into port and protocol, (d) gives a token
without `/` protocol `tcp`, and (e) ignores lines with no recognized
prefix without failing (the parse step is the identity on them). -/
theorem zone_parser_line_semantics :
    (∀ details m, ((splitOnChar '\n' details).map pyStrip).filter
          (fun l => pyStartsWith masqueradeTok l) = [m] →
        (parseZoneDetails details).masquerade =
          pyContains "yes".toList (pyLower m)) ∧
    (∀ details, ((splitOnChar '\n' details).map pyStrip).filter
          (fun l => pyStartsWith targetTok l) = [] →
        (parseZoneDetails details).target = "default".toList) ∧
    (∀ a b : List Char, '/' ∉ a → parsePortSpec (a ++ '/' :: b) = (a, b)) ∧
    (∀ spec : List Char, '/' ∉ spec → parsePortSpec spec = (spec, "tcp".toList)) ∧
    (∀ st raw, (∀ p ∈ recognizedPrefixes, pyStartsWith p (pyStrip raw) = false) →
        parseZoneLine st raw = st) := by
  refine ⟨?_, ?_, ?_, ?_, ?_⟩
  · intro details m hm
    have h := foldl_parseZoneLine_masquerade (splitOnChar '\n' details) initZoneParse
    rw [hm] at h
    simpa [parseZoneDetails] using h
  · intro details ht
    have h := foldl_parseZoneLine_target (splitOnChar '\n' details) initZoneParse
    rw [ht] at h
    simpa [parseZoneDetails, initZoneParse] using h
  · intro a b ha
    simp [parsePortSpec, splitFirst_append a b ha]
  · intro spec h
    simp [parsePortSpec, splitFirst_of_not_mem h]
  · intro st raw h
    simp only [recognizedPrefixes, List.mem_cons, List.not_mem_nil, or_false,
      forall_eq_or_imp, forall_eq] at h
    obtain ⟨h1, h2, h3, h4, h5, h6⟩ := h
    simp only [parseZoneLine]
    rw [if_neg (by simp [h1]), if_neg (by simp [h2]), if_neg (by simp [h3]),
      if_neg (by simp [h4]), if_neg (by simp [h5]), if_neg (by simp [h6])]

example : pyStrip "  ab c \n".toList = "ab c".toList := by decide
example : pySplitWs "  ssh  dhcpv6-client ".toList [] =
    ["ssh".toList, "dhcpv6-client".toList] := by decide
example : splitOnChar '\n' "a\nb\n".toList = ["a".toList, "b".toList, []] := by
  decide
example : pyReplace servicesTok [] "services: ssh".toList = " ssh".toList := by
  decide
example : splitFirst '/' "8080-8090/udp".toList =
    some ("8080-8090".toList, "udp".toList) := by decide
example : pyContains "yes".toList (pyLower "masquerade: Yes".toList) = true := by
  decide

end FirewallCentral

namespace FirewallCentral

/-!
## Sync reconciler due-ness

`sync_agents.py`, `Command.sync_agents` lines 44–73: the queryset filter
(`sync_interval_seconds__gt=0`, `status__in=['online', 'approved']`) and
the per-agent skip when `now - last_sync < sync_interval_seconds`.
-/

/-- The `Agent` fields the reconciler reads. Timestamps are seconds. -/
structure SyncAgent where
  hostname : String
  sync_interval_seconds : Nat
  status : String
  last_sync : Option Int

/-- The queryset filter of `sync_agents` (lines 49–52). -/
def inSyncQuerySet (a : SyncAgent) : Bool :=
  decide (0 < a.sync_interval_seconds) &&
    (a.status = "online" || a.status = "approved")

/-- The loop's due check (lines 56–59): skip when a previous sync exists
and `now - last_sync < sync_interval_seconds`. -/
def dueForSync (a : SyncAgent) (now : Int) : Bool :=
  match a.last_sync with
  | none => true
  | some t => !decide (now - t < (a.sync_interval_seconds : Int))

/-- A sync is attempted for an agent on a tick iff it passes the queryset
filter and the due check. -/
def syncAttempted (a : SyncAgent) (now : Int) : Bool :=
  inSyncQuerySet a && dueForSync a now

/-- C5: a sync is attempted iff the interval is positive, the status is
online or approved, and the agent never synced or is at least one interval
past its last sync; in particular `sync_interval_seconds = 0` never
auto-syncs. -/
theorem sync_attempted_iff :
    (∀ a now, syncAttempted a now = true ↔
      (0 < a.sync_interval_seconds ∧
        (a.status = "online" ∨ a.status = "approved") ∧
        (a.last_sync = none ∨
          ∃ t, a.last_sync = some t ∧
            (a.sync_interval_seconds : Int) ≤ now - t))) ∧
    (∀ a now, a.sync_interval_seconds = 0 → syncAttempted a now = false) := by
  constructor
  · intro a now
    cases h : a.last_sync with
    | none => simp [syncAttempted, inSyncQuerySet, dueForSync, h, and_assoc]
    | some t =>
      simp only [syncAttempted, inSyncQuerySet, dueForSync, h]
      constructor
      · intro hb
        simp only [Bool.and_eq_true, Bool.or_eq_true, decide_eq_true_eq,
          Bool.not_eq_true', decide_eq_false_iff_not, not_lt] at hb
        exact ⟨hb.1.1, by simpa using hb.1.2, Or.inr ⟨t, rfl, hb.2⟩⟩
      · rintro ⟨h1, h2, h3⟩
        rcases h3 with h3 | ⟨t', ht', h3⟩
        · exact absurd h3 (by simp)
        · obtain rfl : t = t' := by injection ht'
          simp only [Bool.and_eq_true, Bool.or_eq_true, decide_eq_true_eq,
            Bool.not_eq_true', decide_eq_false_iff_not, not_lt]
          exact ⟨⟨h1, by simpa using h2⟩, h3⟩
  · intro a now h
    simp [syncAttempted, inSyncQuerySet, h]

/-!
## Pull/queue transport adapter

`web_ui/agents/connection_managers.py`, `AgentToServerConnectionManager`
(lines 493–552): `execute_command` only creates a pending `AgentCommand`
row (Django assigns the next integer primary key) and acknowledges with
its id; `get_zones`/`get_rules` enqueue a command and return `[]`.
-/

/-- A `web_ui` `AgentCommand` row as the connection managers create it. -/
structure WebAgentCommand where
  id : Nat
  agent : List Char
  command : List Char
  parameters : List Char
  status : List Char
deriving DecidableEq

/-- The `AgentCommand` table: rows plus the next auto-assigned key. -/
structure WebCommandDb where
  rows : List WebAgentCommand
  nextId : Nat
deriving DecidableEq

/-- The dict returned by `AgentToServerConnectionManager.execute_command`. -/
structure ExecAck where
  success : Bool
  message : List Char
  command_id : List Char
deriving DecidableEq

/-- A zone record (`{'name': ..., 'details': ...}`) as returned by
`get_zones` implementations. -/
structure ZoneInfo where
  name : List Char
  details : List Char
deriving DecidableEq

/-- A rule record returned by `get_rules` implementations. -/
inductive RuleInfo where
  | service (zone service : List Char)
  | port (zone port : List Char)
deriving DecidableEq

/-- Embeds `AgentToServerConnectionManager.execute_command` (lines 513–533):
creates a pending `AgentCommand` row and returns a success acknowledgement
with `command_id = str(agent_command.id)`; no contact with the agent. -/
def ats_execute_command (db : WebCommandDb)
    (agent command parameters : List Char) : ExecAck × WebCommandDb :=
  let row : WebAgentCommand :=
    { id := db.nextId, agent := agent, command := command,
      parameters := parameters, status := "pending".toList }
  ({ success := true, message := "Command queued for agent".toList,
     command_id := (Nat.repr row.id).toList },
   { rows := db.rows ++ [row], nextId := db.nextId + 1 })

/-- Embeds `AgentToServerConnectionManager.get_zones` (lines 539–542): enqueues a
`get_zones` command, then returns the empty list. -/
def ats_get_zones (db : WebCommandDb) (agent : List Char) :
    List ZoneInfo × WebCommandDb :=
  let r := ats_execute_command db agent "get_zones".toList []
  ([], r.2)

/-- Embeds `AgentToServerConnectionManager.get_rules` (lines 544–547): enqueues a
`get_rules` command, then returns the empty list. -/
def ats_get_rules (db : WebCommandDb) (agent : List Char) :
    List RuleInfo × WebCommandDb :=
  let r := ats_execute_command db agent "get_rules".toList []
  ([], r.2)

/-- C3: under the pull/queue adapter, `execute_command` only appends one
new `AgentCommand` row with status pending and acknowledges success with
that row's id; `get_zones` and `get_rules` return the empty list. -/
theorem ats_adapter_enqueues_only :
    (∀ db agent command parameters,
      (ats_execute_command db agent command parameters).1.success = true ∧
      (ats_execute_command db agent command parameters).1.command_id =
        (Nat.repr db.nextId).toList ∧
      (ats_execute_command db agent command parameters).2.rows =
        db.rows ++ [⟨db.nextId, agent, command, parameters, "pending".toList⟩]) ∧
    (∀ db agent, (ats_get_zones db agent).1 = []) ∧
    (∀ db agent, (ats_get_rules db agent).1 = []) := by
  refine ⟨fun db agent command parameters => ⟨rfl, rfl, rfl⟩,
    fun db agent => rfl, fun db agent => rfl⟩

end FirewallCentral

namespace FirewallCentral

/-!
## Remote-shell (SSH) transport adapter

`web_ui/agents/connection_managers.py`, `SSHConnectionManager.execute_command`
(lines 168–271): maps a command type and parameters to a `firewall-cmd`
command line, runs it over SSH, and for a successful mutating permanent
command issues a follow-up `firewall-cmd --reload`, appending a warning to
stdout when the reload fails. The SSH channel is abstracted as an oracle
from a command line to `(stdout, stderr, exit_code)`.
-/

/-- The parameter dict keys `SSHConnectionManager.execute_command` reads. -/
structure PyParams where
  service : Option (List Char) := none
  zone : Option (List Char) := none
  port : Option (List Char) := none
  permanent : Option Bool := none
deriving DecidableEq

/-- Python `parameters.get('permanent', True) if parameters else True`. -/
def permanentOf (parameters : Option PyParams) : Bool :=
  match parameters with
  | none => true
  | some p => p.permanent.getD true

/-- Python `' '.join(parts)`. -/
def joinSpace : List (List Char) → List Char
  | [] => []
  | [x] => x
  | x :: xs => x ++ ' ' :: joinSpace xs

/-- Python `if v: cmd_parts.extend([flag, v])` — truthiness skips an
absent or empty value. -/
def optFlag (flag : List Char) : Option (List Char) → List (List Char)
  | some x => if x.isEmpty then [] else [flag, x]
  | none => []

/-- The command types that trigger a follow-up reload (line 245). -/
def mutatingCommands : List (List Char) :=
  ["add_service".toList, "remove_service".toList, "add_port".toList,
   "remove_port".toList, "new_zone".toList, "delete_zone".toList]

/-- The literal `firewall-cmd --reload` (lines 237 and 249). -/
def reloadCmd : List Char := "firewall-cmd --reload".toList

/-- The warning prefix of line 251 (`f"\nReload warning: {reload_stderr}"`). -/
def reloadWarningTok : List Char := "\nReload warning: ".toList

/-- The `cmd_parts` construction of lines 171–241, for an already
normalized command name, joined with spaces. -/
def buildFirewallCmd (command : List Char) (parameters : Option PyParams) :
    List Char :=
  let service := parameters.bind (·.service)
  let zone := parameters.bind (·.zone)
  let port := parameters.bind (·.port)
  let permanent := permanentOf parameters
  let base : List (List Char) := ["firewall-cmd".toList]
  let parts : List (List Char) :=
    if command = "get_zones".toList then base ++ ["--get-zones".toList]
    else if command = "get_default_zone".toList then
      base ++ ["--get-default-zone".toList]
    else if command = "list_all".toList then base ++ ["--list-all".toList]
    else if command = "add_service".toList then
      base ++ (if permanent then ["--permanent".toList] else [])
        ++ optFlag "--zone".toList zone
        ++ optFlag "--add-service".toList service
    else if command = "remove_service".toList then
      base ++ (if permanent then ["--permanent".toList] else [])
        ++ optFlag "--zone".toList zone
        ++ optFlag "--remove-service".toList service
    else if command = "add_port".toList then
      base ++ (if permanent then ["--permanent".toList] else [])
        ++ optFlag "--zone".toList zone
        ++ optFlag "--add-port".toList port
    else if command = "remove_port".toList then
      base ++ (if permanent then ["--permanent".toList] else [])
        ++ optFlag "--zone".toList zone
        ++ optFlag "--remove-port".toList port
    else if command = "new_zone".toList then
      base ++ (if permanent then ["--permanent".toList] else [])
        ++ optFlag "--new-zone".toList zone
    else if command = "delete_zone".toList then
      base ++ (if permanent then ["--permanent".toList] else [])
        ++ optFlag "--delete-zone".toList zone
    else if command = "reload".toList then base ++ ["--reload".toList]
    else base
  joinSpace parts

/-- What `SSHConnectionManager.execute_command` produces: the returned
dict plus the status of the logged `AgentCommand` row and the trace of
command lines actually run over SSH. -/
structure SSHExecResult where
  success : Bool
  output : List Char
  command : List Char
  log_status : List Char
  trace : List (List Char)
deriving DecidableEq

/-- Embeds `SSHConnectionManager.execute_command` (lines 168–266) over an SSH
oracle `sshExec : command line ↦ (stdout, stderr, exit_code)`. -/
def ssh_execute_command (sshExec : List Char → List Char × List Char × Int)
    (command0 : List Char) (parameters : Option PyParams) : SSHExecResult :=
  let command := pyReplace "-".toList "_".toList command0
  let firewall_cmd := buildFirewallCmd command parameters
  let res := sshExec firewall_cmd
  let stdout := res.1
  let stderr := res.2.1
  let exit_code := res.2.2
  let needs_reload := decide (command ∈ mutatingCommands)
  let permanent := permanentOf parameters
  let step2 :=
    if decide (exit_code = 0) && needs_reload && permanent then
      let r := sshExec reloadCmd
      (if r.2.2 ≠ 0 then stdout ++ reloadWarningTok ++ r.2.1 else stdout,
       [firewall_cmd, reloadCmd])
    else (stdout, [firewall_cmd])
  { success := decide (exit_code = 0)
    output := if exit_code = 0 then step2.1 else stderr
    command := firewall_cmd
    log_status := if exit_code = 0 then "completed".toList else "failed".toList
    trace := step2.2 }

/-- C6: a mutating SSH command with `permanent = true` whose own execution
exits 0 triggers a follow-up `firewall-cmd --reload`; if the reload fails,
the result is still a success (and logged completed) with the reload
warning appended to the output. -/
theorem ssh_reload_failure_is_warning
    (sshExec : List Char → List Char × List Char × Int)
    (command0 : List Char) (parameters : Option PyParams)
    (hm : pyReplace "-".toList "_".toList command0 ∈ mutatingCommands)
    (hperm : permanentOf parameters = true)
    (hexit : (sshExec (buildFirewallCmd
      (pyReplace "-".toList "_".toList command0) parameters)).2.2 = 0)
    (hreload : (sshExec reloadCmd).2.2 ≠ 0) :
    (ssh_execute_command sshExec command0 parameters).success = true ∧
    reloadCmd ∈ (ssh_execute_command sshExec command0 parameters).trace ∧
    (ssh_execute_command sshExec command0 parameters).output =
      (sshExec (buildFirewallCmd
        (pyReplace "-".toList "_".toList command0) parameters)).1
        ++ reloadWarningTok ++ (sshExec reloadCmd).2.1 ∧
    (ssh_execute_command sshExec command0 parameters).log_status =
      "completed".toList := by
  simp only [ssh_execute_command]
  simp_all

/-- An SSH oracle on which every command succeeds except the reload. -/
def reloadFailingExec : List Char → List Char × List Char × Int :=
  fun cmd =>
    if cmd = reloadCmd then ([], "RELOAD_BROKEN".toList, 1)
    else ("success".toList, [], 0)

/-- Witness for C6: a hyphen-spelled `add-service` with default
`permanent`, succeeding itself while the follow-up reload fails. -/
theorem ssh_reload_failure_is_warning_witness :
    (ssh_execute_command reloadFailingExec "add-service".toList
        (some ⟨some "http".toList, some "public".toList, none, none⟩)).success
        = true ∧
    reloadCmd ∈ (ssh_execute_command reloadFailingExec "add-service".toList
        (some ⟨some "http".toList, some "public".toList, none, none⟩)).trace ∧
    (ssh_execute_command reloadFailingExec "add-service".toList
        (some ⟨some "http".toList, some "public".toList, none, none⟩)).output =
      (reloadFailingExec (buildFirewallCmd
        (pyReplace "-".toList "_".toList "add-service".toList)
        (some ⟨some "http".toList, some "public".toList, none, none⟩))).1
        ++ reloadWarningTok ++ (reloadFailingExec reloadCmd).2.1 ∧
    (ssh_execute_command reloadFailingExec "add-service".toList
        (some ⟨some "http".toList, some "public".toList, none, none⟩)).log_status
        = "completed".toList :=
  ssh_reload_failure_is_warning reloadFailingExec "add-service".toList
    (some ⟨some "http".toList, some "public".toList, none, none⟩)
    (by decide) (by decide) (by decide) (by decide)

end FirewallCentral

namespace FirewallCentral

/-!
## Push-mode HTTP agent authentication

`agent/http_agent.py`, `FirewalldHTTPHandler._check_auth` (lines 110–116)
and `handle_execute_command` (lines 71–108). The configured key is `none`
when the process was started without `--api-key`.
-/

/-- Embeds `FirewalldHTTPHandler._check_auth`: a `Bearer` header compares its
token against the configured key (`token == None` is false in Python); a
non-`Bearer` header passes exactly when no truthy key is configured. -/
def check_auth (api_key : Option (List Char)) (auth_header : List Char) : Bool :=
  if pyStartsWith "Bearer ".toList auth_header then
    decide (some (auth_header.drop 7) = api_key)
  else
    match api_key with
    | none => true
    | some k => k.isEmpty

/-- Outcome of `handle_execute_command` as far as authentication and
dispatch are concerned. -/
inductive ExecuteOutcome where
  | unauthorized
  | badRequest
  | executed (command : List Char)
deriving DecidableEq

/-- Embeds `handle_execute_command` (lines 71–108): reject with 401 before any
execution when `_check_auth` fails; otherwise execute the body's command
(`badRequest` stands for the 400 paths). -/
def handle_execute_command (api_key : Option (List Char))
    (auth_header : List Char) (body_command : Option (List Char)) :
    ExecuteOutcome :=
  if !check_auth api_key auth_header then .unauthorized
  else
    match body_command with
    | none => .badRequest
    | some c => .executed c

/-- C10 counterexample: with no API key configured, a request whose
Authorization header is `Bearer x` is rejected (the token is compared
against the absent key), so not every request passes the check. -/
theorem http_auth_no_key_counterexample :
    check_auth none "Bearer x".toList = false ∧
    handle_execute_command none "Bearer x".toList
      (some "get_status".toList) = ExecuteOutcome.unauthorized := by
  constructor
  · decide
  · decide

/-- C10 as amended: with a nonempty key configured, a request is accepted
iff its Authorization header is exactly `Bearer ` followed by that key;
with no key configured, a request passes iff its header does not start
with `Bearer `; and a request failing the check is rejected without
executing any command. -/
theorem http_auth_semantics :
    (∀ k header, k ≠ [] →
      (check_auth (some k) header = true ↔
        header = "Bearer ".toList ++ k)) ∧
    (∀ header, check_auth none header =
      !pyStartsWith "Bearer ".toList header) ∧
    (∀ api_key header cmd, check_auth api_key header = false →
      handle_execute_command api_key header cmd =
        ExecuteOutcome.unauthorized) := by
  refine ⟨?_, ?_, ?_⟩
  · intro k header hk
    cases h : pyStartsWith "Bearer ".toList header with
    | false =>
      simp only [check_auth, h, Bool.false_eq_true, if_false]
      constructor
      · intro hke
        exact absurd (List.isEmpty_iff.mp hke) hk
      · intro he
        subst he
        have : pyStartsWith "Bearer ".toList ("Bearer ".toList ++ k) = true := by
          simp [pyStartsWith, List.isPrefixOf_iff_prefix]
        rw [h] at this
        cases this
    | true =>
      simp only [check_auth, h, if_true, decide_eq_true_eq, Option.some_inj]
      have hpre : "Bearer ".toList <+: header := by
        have := h
        rwa [pyStartsWith, List.isPrefixOf_iff_prefix] at this
      obtain ⟨t, rfl⟩ := hpre
      have hdrop : List.drop 7 ("Bearer ".toList ++ t) = t :=
        List.drop_left' (by decide)
      rw [hdrop]
      constructor
      · intro hd
        rw [hd]
      · intro he
        exact List.append_cancel_left he
  · intro header
    cases h : pyStartsWith "Bearer ".toList header <;>
      (simp only [check_auth, h, Bool.false_eq_true, if_false, if_true,
        Bool.not_false, Bool.not_true]
       try rfl)
  · intro api_key header cmd hfail
    simp [handle_execute_command, hfail]

end FirewallCentral

namespace FirewallCentral

/-!
## Command lifecycle: terminal immutability and cancel

`api_server/routers/commands.py`, `cancel_command` (lines 52–65) over the
`Command` table, plus the result-recording write of
`api_server/command_dispatcher.py` (`process_command_result`, lines
91–127), whose database method `DatabaseManager.update_command_result`
lives in `api_server/database.py`, which is not among the sources.
-/

/-- A `Command` row as the commands router reads it. -/
structure ApiCommand where
  id : List Char
  agent_id : List Char
  status : List Char
  result : Option (List Char)
  error : Option (List Char)
deriving DecidableEq

/-- The terminal statuses of the spec's command state machine. -/
def terminalStatuses : List (List Char) :=
  ["completed".toList, "failed".toList, "cancelled".toList, "timeout".toList]

/-- Responses of the cancel endpoint. -/
inductive CancelResponse where
  | notFound
  | badRequest
  | cancelled
deriving DecidableEq

/-- Embeds `cancel_command` (routers/commands.py lines 52–65): 404 when no row
matches, 400 (`Command cannot be cancelled`) when the row's status is not
`pending`, otherwise set the status to `cancelled` and commit. -/
def cancel_command (db : List ApiCommand) (cid : List Char) :
    CancelResponse × List ApiCommand :=
  match db.find? (fun c => c.id = cid) with
  | none => (.notFound, db)
  | some c =>
    if c.status ≠ "pending".toList then (.badRequest, db)
    else
      (.cancelled,
       db.map (fun x =>
         if x.id = cid then { x with status := "cancelled".toList } else x))

/-- Modelled from the spec: `DatabaseManager.update_command_result`
(`api_server/database.py`) is not among the sources; only its callers in
`command_dispatcher.py` are. Per the spec, recording a result sets the
completed/failed terminal state once, and "a completed/failed/cancelled/
timeout status is terminal and must never be overwritten", so a command
already terminal is left unchanged. -/
def update_command_result (db : List ApiCommand) (cid : List Char)
    (success : Bool) (result error : Option (List Char)) :
    Bool × List ApiCommand :=
  match db.find? (fun c => c.id = cid) with
  | none => (false, db)
  | some c =>
    if c.status ∈ terminalStatuses then (false, db)
    else
      (true,
       db.map (fun x =>
         if x.id = cid then
           { x with
             status := if success then "completed".toList else "failed".toList,
             result := result, error := error }
         else x))

/-- C1: terminal statuses are never `pending`, so cancel rejects them; a
command found with non-pending status is left unchanged by cancel (400);
a command found in a terminal status is left unchanged by a result write;
and cancelling a pending command flips exactly the rows bearing its id to
`cancelled`, leaving every other row as it was. -/
theorem command_terminal_immutable_and_cancel_gate :
    (∀ s ∈ terminalStatuses, s ≠ "pending".toList) ∧
    (∀ db cid c, db.find? (fun x => x.id = cid) = some c →
      c.status ≠ "pending".toList →
      cancel_command db cid = (CancelResponse.badRequest, db)) ∧
    (∀ db cid success result error c,
      db.find? (fun x => x.id = cid) = some c →
      c.status ∈ terminalStatuses →
      update_command_result db cid success result error = (false, db)) ∧
    (∀ db cid c, (db.map (fun x => x.id)).Nodup →
      db.find? (fun x => x.id = cid) = some c →
      c.status = "pending".toList →
      (cancel_command db cid).1 = CancelResponse.cancelled ∧
      ∀ x ∈ (cancel_command db cid).2,
        (x ∈ db ∧ x.id ≠ cid) ∨
          x = { c with status := "cancelled".toList }) := by
  refine ⟨by decide, ?_, ?_, ?_⟩
  · intro db cid c hf hs
    simp only [cancel_command, hf]
    rw [if_pos hs]
  · intro db cid success result error c hf hs
    simp [update_command_result, hf, hs]
  · intro db cid c hnd hf hs
    have hcid : c.id = cid := by
      have := List.find?_some hf
      simpa using this
    have hcmem : c ∈ db := List.mem_of_find?_eq_some hf
    constructor
    · simp [cancel_command, hf, hs]
    · intro x hx
      simp only [cancel_command, hf, hs] at hx
      rw [if_neg (by simp)] at hx
      simp only [List.mem_map] at hx
      obtain ⟨d, hd, hdx⟩ := hx
      by_cases hid : d.id = cid
      · right
        have hdc : d = c :=
          List.inj_on_of_nodup_map hnd hd hcmem (by rw [hid, hcid])
        subst hdc
        rw [← hdx]
        simp [hid]
      · left
        rw [← hdx]
        simp only [hid, if_false]
        exact ⟨hd, hid⟩

end FirewallCentral

namespace FirewallCentral

/-!
## Command dispatcher: send and timeout cleanup

`api_server/command_dispatcher.py`, `send_command` (lines 24–64) and
`cleanup_expired_commands` (lines 148–176), over a Redis model: `setex`
stores a key with an absolute expiry, and a logically expired key is
invisible to reads, so `KEYS` lists only keys whose expiry lies in the
future and `EXISTS` is true exactly for such keys.
-/

/-- A dispatcher command row (`create_command` columns used here). -/
structure DispatchCommand where
  command_id : List Char
  agent_id : List Char
  status : List Char
  error : Option (List Char)
  created_at : Int
  timeout : Int
deriving DecidableEq

/-- Redis `lpush` onto the `agent_commands:<agent>` list. -/
def lpushQueue :
    List (List Char × List (List Char)) → List Char → List Char →
      List (List Char × List (List Char))
  | [], agent, cid => [(agent, [cid])]
  | (a, q) :: rest, agent, cid =>
    if a = agent then (a, cid :: q) :: rest
    else (a, q) :: lpushQueue rest agent cid

/-- Database rows, the `command:<id>` cache keys with their absolute
expiry instants, and the per-agent command queues. -/
structure DispatcherState where
  db : List DispatchCommand
  cache : List (List Char × Int)
  queues : List (List Char × List (List Char))
deriving DecidableEq

/-- The keys of `KEYS "command:*"` at an instant: only unexpired keys are
visible to Redis reads. -/
def redisLiveKeys (cache : List (List Char × Int)) (now : Int) :
    List (List Char) :=
  (cache.filter (fun kv => decide (now < kv.2))).map (fun kv => kv.1)

/-- Redis `EXISTS` at an instant. -/
def redisExists (cache : List (List Char × Int)) (key : List Char)
    (now : Int) : Bool :=
  decide (key ∈ redisLiveKeys cache now)

/-- Embeds `CommandDispatcher.send_command` (lines 24–64): persist the command
(status pending), `setex` the cache key for `timeout + 60` seconds, and
push the id onto the agent's queue. -/
def send_command (st : DispatcherState) (cid agent : List Char)
    (timeout now : Int) : DispatcherState :=
  { db := st.db ++ [⟨cid, agent, "pending".toList, none, now, timeout⟩]
    cache := st.cache ++ [(cid, now + timeout + 60)]
    queues := lpushQueue st.queues agent cid }

/-- The database write `cleanup_expired_commands` requests for a command
it believes expired (`update_command_result(cid, False, None,
"Command timed out")`); `DatabaseManager.update_command_result` is not
among the sources and is modelled from the spec as the once-only terminal
write. -/
def markTimedOut (db : List DispatchCommand) (cid : List Char) :
    List DispatchCommand :=
  db.map (fun c =>
    if c.command_id = cid ∧ c.status ∉ terminalStatuses then
      { c with status := "failed".toList
               error := some "Command timed out".toList }
    else c)

/-- Embeds `CommandDispatcher.cleanup_expired_commands` (lines 148–176): list the
`command:*` keys, and for each key that no longer EXISTS, mark the command
timed out in the database and count it. Neither the agent queues nor the
cache are touched. -/
def cleanup_expired_commands (st : DispatcherState) (now : Int) :
    Nat × DispatcherState :=
  (redisLiveKeys st.cache now).foldl
    (fun acc key =>
      if redisExists st.cache key now then acc
      else (acc.1 + 1, { acc.2 with db := markTimedOut acc.2.db key }))
    (0, st)

/-- Every key the `KEYS` scan returns still exists at the same instant,
so the cleanup fold never takes its marking branch. -/
theorem foldl_cleanup_noop (st : DispatcherState) (now : Int)
    (l : List (List Char))
    (hall : ∀ key ∈ l, redisExists st.cache key now = true) :
    l.foldl
      (fun acc key =>
        if redisExists st.cache key now then acc
        else (acc.1 + 1, { acc.2 with db := markTimedOut acc.2.db key }))
      (0, st) = (0, st) := by
  induction l with
  | nil => rfl
  | cons k ks ih =>
    rw [List.foldl_cons, if_pos (hall k (by simp))]
    exact ih (fun key hkey => hall key (by simp [hkey]))

/-- A command sent at time 0 with a 30-second timeout, in an empty
dispatcher state. -/
def expiredScenario : DispatcherState :=
  send_command ⟨[], [], []⟩ "cmd1".toList "agent1".toList 30 0

/-- C7 (against the code): every key returned by the `KEYS` scan still
exists at the same instant, so the cleanup pass finds nothing: it returns
count 0 and changes no state; and concretely, a command sent at time 0
with a 30-second timeout is, at time 100, long past its timeout yet still
`pending` in the database and still in its agent's queue after a cleanup
pass (its cache key expired at 91 and is invisible to the scan). -/
theorem cleanup_never_times_out_commands :
    (∀ st now, cleanup_expired_commands st now = (0, st)) ∧
    ((100 : Int) - 0 > 30 ∧
     cleanup_expired_commands expiredScenario 100 = (0, expiredScenario) ∧
     expiredScenario.db = [⟨"cmd1".toList, "agent1".toList,
       "pending".toList, none, 0, 30⟩] ∧
     expiredScenario.queues = [("agent1".toList, ["cmd1".toList])]) := by
  constructor
  · intro st now
    unfold cleanup_expired_commands
    exact foldl_cleanup_noop st now _ (fun key hk => by simp [redisExists, hk])
  · exact ⟨by decide, by decide, by decide, by decide⟩

end FirewallCentral

namespace FirewallCentral

/-!
## Agent registration

`api_server/agent_manager.py`, `AgentManager.register_agent` (lines
26–105): generate `hostname-<uuid8>`, but reuse the existing `agent_id`
when some stored agent already has this hostname, then persist the fresh
`AgentInfo` through `DatabaseManager.create_agent`.
-/

/-- The `AgentInfo` fields registration persists that matter here. -/
structure AgentRecord where
  agent_id : List Char
  hostname : List Char
  ip_address : List Char
  status : List Char
deriving DecidableEq

/-- Modelled from the spec: `DatabaseManager.create_agent`
(`api_server/database.py`) is not among the sources; only its caller
`register_agent` is. Per the spec, "register (idempotent by hostname —
re-registering an existing hostname updates rather than duplicates)", so
saving under an `agent_id` that already exists replaces that record and a
new `agent_id` appends a row. -/
def create_agent (db : List AgentRecord) (rec : AgentRecord) :
    List AgentRecord :=
  if db.any (fun a => a.agent_id = rec.agent_id) then
    db.map (fun a => if a.agent_id = rec.agent_id then rec else a)
  else db ++ [rec]

/-- Embeds `AgentManager.register_agent` (lines 26–105): the stored record gets
status pending and the registration's ip; the returned string is the
`agent_id` the caller receives. `uuid8` stands for the fresh
`uuid.uuid4().hex[:8]`. -/
def register_agent (db : List AgentRecord) (hostname ip uuid8 : List Char) :
    List Char × List AgentRecord :=
  let fresh := hostname ++ '-' :: uuid8
  let agent_id :=
    match db.find? (fun a => a.hostname = hostname) with
    | some a => a.agent_id
    | none => fresh
  let rec0 : AgentRecord :=
    { agent_id := agent_id, hostname := hostname, ip_address := ip,
      status := "pending".toList }
  (agent_id, create_agent db rec0)

/-- C8: with unique ids and hostnames, registering a hostname that
already has a record returns that record's `agent_id` and updates the
record in place (new ip, same row count, every other row untouched); and
a registration never introduces a duplicate hostname. -/
theorem register_agent_idempotent_by_hostname :
    (∀ db hostname ip uuid8 a,
      (db.map (fun x => x.agent_id)).Nodup →
      db.find? (fun x => x.hostname = hostname) = some a →
      (register_agent db hostname ip uuid8).1 = a.agent_id ∧
      (register_agent db hostname ip uuid8).2.length = db.length ∧
      (∀ x ∈ (register_agent db hostname ip uuid8).2,
        (x ∈ db ∧ x.agent_id ≠ a.agent_id) ∨
          x = { agent_id := a.agent_id, hostname := hostname,
                ip_address := ip, status := "pending".toList })) ∧
    (∀ db hostname ip uuid8,
      (db.map (fun x => x.agent_id)).Nodup →
      (db.map (fun x => x.hostname)).Nodup →
      (∀ x ∈ db, x.agent_id ≠ hostname ++ '-' :: uuid8) →
      ((register_agent db hostname ip uuid8).2.map
        (fun x => x.hostname)).Nodup) ∧
    (∀ db hostname ip uuid8,
      (db.map (fun x => x.agent_id)).Nodup →
      (∀ x ∈ db, x.agent_id ≠ hostname ++ '-' :: uuid8) →
      ((register_agent db hostname ip uuid8).2.map
        (fun x => x.agent_id)).Nodup) := by
  refine ⟨?_, ?_, ?_⟩
  · intro db hostname ip uuid8 a hnd hf
    have hmem : a ∈ db := List.mem_of_find?_eq_some hf
    have hany : db.any (fun x => x.agent_id = a.agent_id) = true := by
      simp only [List.any_eq_true]
      exact ⟨a, hmem, by simp⟩
    refine ⟨by simp [register_agent, hf], ?_, ?_⟩
    · simp [register_agent, hf, create_agent, hany]
    · intro x hx
      simp only [register_agent, hf, create_agent, hany, if_true,
        List.mem_map] at hx
      obtain ⟨d, hd, hdx⟩ := hx
      by_cases hid : d.agent_id = a.agent_id
      · right
        rw [← hdx]
        simp [hid]
      · left
        rw [← hdx]
        simp only [hid, if_false]
        exact ⟨hd, hid⟩
  · intro db hostname ip uuid8 hndid hndhost hfresh
    cases hf : db.find? (fun x => x.hostname = hostname) with
    | none =>
      have hnotin : ∀ x ∈ db, x.hostname ≠ hostname := by
        intro x hx
        have := List.find?_eq_none.mp hf x hx
        simpa using this
      simp only [register_agent, hf, create_agent]
      rw [if_neg (by
        simp only [List.any_eq_true, not_exists, not_and,
          decide_eq_true_eq]
        exact hfresh)]
      simp only [List.map_append, List.map_cons, List.map_nil]
      rw [List.nodup_append]
      refine ⟨hndhost, List.nodup_singleton _, ?_⟩
      intro y hy
      simp only [List.mem_map] at hy
      obtain ⟨d, hd, rfl⟩ := hy
      simp only [List.mem_singleton]
      exact fun hc => hnotin d hd hc
    | some a =>
      have hmem : a ∈ db := List.mem_of_find?_eq_some hf
      have hahost : a.hostname = hostname := by
        have := List.find?_some hf
        simpa using this
      have hany : db.any (fun x => x.agent_id = a.agent_id) = true := by
        simp only [List.any_eq_true]
        exact ⟨a, hmem, by simp⟩
      simp only [register_agent, hf, create_agent, hany, if_true]
      have hmapeq : (db.map (fun x =>
          if x.agent_id = a.agent_id then
            ({ agent_id := a.agent_id, hostname := hostname,
               ip_address := ip, status := "pending".toList } : AgentRecord)
          else x)).map (fun x => x.hostname) =
          db.map (fun x => x.hostname) := by
        rw [List.map_map]
        apply List.map_congr_left
        intro d hd
        by_cases hid : d.agent_id = a.agent_id
        · have hdc : d = a := List.inj_on_of_nodup_map hndid hd hmem hid
          subst hdc
          simp [hid, hahost]
        · simp [hid]
      rw [hmapeq]
      exact hndhost
  · intro db hostname ip uuid8 hndid hfresh
    cases hf : db.find? (fun x => x.hostname = hostname) with
    | none =>
      simp only [register_agent, hf, create_agent]
      rw [if_neg (by
        simp only [List.any_eq_true, not_exists, not_and,
          decide_eq_true_eq]
        exact hfresh)]
      simp only [List.map_append, List.map_cons, List.map_nil]
      rw [List.nodup_append]
      refine ⟨hndid, List.nodup_singleton _, ?_⟩
      intro y hy
      simp only [List.mem_map] at hy
      obtain ⟨d, hd, rfl⟩ := hy
      simp only [List.mem_singleton]
      exact hfresh d hd
    | some a =>
      have hmem : a ∈ db := List.mem_of_find?_eq_some hf
      have hany : db.any (fun x => x.agent_id = a.agent_id) = true := by
        simp only [List.any_eq_true]
        exact ⟨a, hmem, by simp⟩
      simp only [register_agent, hf, create_agent, hany, if_true]
      have hmapeq : (db.map (fun x =>
          if x.agent_id = a.agent_id then
            ({ agent_id := a.agent_id, hostname := hostname,
               ip_address := ip, status := "pending".toList } : AgentRecord)
          else x)).map (fun x => x.agent_id) =
          db.map (fun x => x.agent_id) := by
        rw [List.map_map]
        apply List.map_congr_left
        intro d hd
        by_cases hid : d.agent_id = a.agent_id <;> simp [hid]
      rw [hmapeq]
      exact hndid

end FirewallCentral

namespace FirewallCentral

/-!
## Sync mirror replace

`sync_agents.py`, `Command.sync_agent` (lines 75–175): raise before any
write when the zone fetch returned nothing; otherwise delete the agent's
`FirewallZone` rows (rules cascade) and re-create zones and rules from
the parsed data. The function does not open a `transaction.atomic` block,
so under Django's default autocommit each ORM call commits on its own;
the run is therefore modelled as a sequence of individually committed
operations, of which an interrupted run applies a prefix.
-/

/-- A `FirewallZone` mirror row. -/
structure MirrorZoneRow where
  agent : List Char
  name : List Char
  zone : ZoneParse
deriving DecidableEq

/-- A `FirewallRule` mirror row. -/
structure MirrorRuleRow where
  agent : List Char
  zoneName : List Char
  rule : DerivedRule
deriving DecidableEq

/-- The mirrored configuration store. -/
structure MirrorDb where
  zones : List MirrorZoneRow
  rules : List MirrorRuleRow
deriving DecidableEq

/-- One ORM call of `sync_agent`'s replace phase. -/
inductive MirrorOp where
  | deleteAgentZones (agent : List Char)
  | createZone (row : MirrorZoneRow)
  | createRule (row : MirrorRuleRow)
deriving DecidableEq

/-- Effect of one committed ORM call: the delete removes the agent's
zones and (by cascade / rule lifecycle) its rules; creates append. -/
def applyMirrorOp (db : MirrorDb) : MirrorOp → MirrorDb
  | .deleteAgentZones a =>
    { zones := db.zones.filter (fun z => ¬ z.agent = a)
      rules := db.rules.filter (fun r => ¬ r.agent = a) }
  | .createZone z => { db with zones := db.zones ++ [z] }
  | .createRule r => { db with rules := db.rules ++ [r] }

/-- The ordered ORM calls `sync_agent` issues for non-empty zone data
(lines 86–165): one delete, then per zone (skipping empty names) one zone
create followed by its service rules and then its port rules. -/
def syncAgentOps (agent : List Char) (zones_data : List ZoneInfo) :
    List MirrorOp :=
  MirrorOp.deleteAgentZones agent ::
    zones_data.flatMap (fun zi =>
      if zi.name = [] then []
      else
        let z := parseZoneDetails zi.details
        MirrorOp.createZone ⟨agent, zi.name, z⟩ ::
          (derivedRules z).map
            (fun r => MirrorOp.createRule ⟨agent, zi.name, r⟩))

/-- A run of `sync_agent`'s mirror replace that commits the first `steps`
ORM calls: `steps ≥ (syncAgentOps ...).length` is the uninterrupted run,
a smaller `steps` is a run interrupted by a failure after that many
committed calls. An empty fetch raises before any write. -/
def sync_agent_run (db : MirrorDb) (agent : List Char)
    (zones_data : List ZoneInfo) (steps : Nat) : MirrorDb :=
  if zones_data = [] then db
  else ((syncAgentOps agent zones_data).take steps).foldl applyMirrorOp db

/-- C4 counterexample: the replace phase is not atomic. With one stored
zone for agent `a1` and fresh data holding one zone, the uninterrupted
run mirrors one zone, but the run interrupted right after the delete
commits leaves `a1` with an empty mirror — a partially replaced state the
claim says cannot occur. -/
theorem sync_mirror_not_atomic_counterexample :
    ((sync_agent_run
        ⟨[⟨"a1".toList, "public".toList, initZoneParse⟩], []⟩
        "a1".toList
        [⟨"public".toList, "  services: ssh\n".toList⟩] 99).zones.filter
      (fun z => z.agent = "a1".toList)).length = 1 ∧
    ((sync_agent_run
        ⟨[⟨"a1".toList, "public".toList, initZoneParse⟩], []⟩
        "a1".toList
        [⟨"public".toList, "  services: ssh\n".toList⟩] 1).zones.filter
      (fun z => z.agent = "a1".toList)).length = 0 := by
  constructor
  · decide
  · decide

/-- C4 as amended: a failed fetch (empty zone data) leaves the previous
mirror untouched at every interruption point; an uninterrupted run fully
replaces the agent's rows; but the ORM calls commit one by one, so the
run interrupted right after the delete leaves the agent with an empty
mirror even though both the previous mirror and the fetched data are
non-empty. -/
theorem sync_mirror_replace_semantics :
    (∀ db agent steps, sync_agent_run db agent [] steps = db) ∧
    (∀ db agent zones_data steps,
      (syncAgentOps agent zones_data).length ≤ steps →
      sync_agent_run db agent zones_data steps =
        sync_agent_run db agent zones_data
          (syncAgentOps agent zones_data).length) ∧
    (((sync_agent_run
        ⟨[⟨"a1".toList, "public".toList, initZoneParse⟩], []⟩
        "a1".toList
        [⟨"public".toList, "  services: ssh\n".toList⟩] 1).zones.filter
      (fun z => z.agent = "a1".toList)).length = 0 ∧
     ((sync_agent_run
        ⟨[⟨"a1".toList, "public".toList, initZoneParse⟩], []⟩
        "a1".toList
        [⟨"public".toList, "  services: ssh\n".toList⟩] 99).zones.filter
      (fun z => z.agent = "a1".toList)).length = 1) := by
  refine ⟨?_, ?_, by decide, by decide⟩
  · intro db agent steps
    simp [sync_agent_run]
  · intro db agent zones_data steps hle
    by_cases hz : zones_data = []
    · simp [sync_agent_run, hz]
    · simp only [sync_agent_run, hz, if_neg]
      rw [List.take_of_length_le hle, List.take_length]

end FirewallCentral
